import Mathlib

/-!
# Verification of the Time-switch control logic

Shallow embedding of the core control logic of the timed power-switch
sketch (`SpinacPavol_101.ino` together with `Timer/classes.h`):

* `PowerTimer` — the countdown/freeze state machine that owns the relay;
* `SettingsArray` — the fixed-capacity preset/interval store (index logic);
* the plus/minus time-adjustment branches of `loop()`;
* the `button_ready` latch guarding the long-press power-off branch;
* the `Display` repaint rate limiting and transient-message logic;
* the EEPROM persistence protocol (byte image + nibble-wise CRC-32).

Machine integers are modelled as `Nat`/`Int` with explicit truncation where
the C code computes modulo 2^w.  Wall-clock time (`millis()`) is passed in
explicitly as a `Nat` argument `now`; `unsigned long` subtractions
`millis() - t` are modelled by truncated `Nat` subtraction, which agrees
with the C computation whenever `t ≤ now` and no 32-bit wrap occurs (the
theorems carry the corresponding monotonicity hypotheses).  The terminal
`PowerTimer::off()` busy-loop, which asserts the de-energized output and
feeds the watchdog forever and never returns, is modelled by the `Option`
value `none` of `PowerTimer.update`: no further state exists.
-/

-- --------------- PowerTimer (Timer/classes.h, lines 163-217) --------------- --

/-- State of `class PowerTimer`: `time` is the countdown in seconds (C `int`),
`timer` the `millis()` timestamp of the last one-second tick, `freeze_time`
the freeze counter (C `int`), `energized` the logical state of the relay
output pin (`true` = power ON). -/
structure PTState where
  time : Int
  timer : Nat
  freeze_time : Int
  energized : Bool
deriving DecidableEq, Repr

/-- `PowerTimer::start(int time)`: sets the countdown, resets the tick
timestamp to the current `millis()`, energizes the output.  (Note: the
source does NOT touch `freeze_time` here.) -/
def PowerTimer.start (t : Int) (now : Nat) (s : PTState) : PTState :=
  ⟨t, now, s.freeze_time, true⟩

/-- `PowerTimer::freeze(int time)`: sets the freeze counter. -/
def PowerTimer.freeze (f : Int) (s : PTState) : PTState :=
  ⟨s.time, s.timer, f, s.energized⟩

/-- `PowerTimer::update()`: if `time <= 0`, calls `off()` — the terminal
busy-loop that de-energizes the output forever (modelled as `none`).
Otherwise, if at least 1000 ms elapsed since the last tick, performs one
tick: decrement `freeze_time` if positive, else decrement `time`. -/
def PowerTimer.update (now : Nat) (s : PTState) : Option PTState :=
  if s.time ≤ 0 then none
  else if 1000 ≤ now - s.timer then
    if 0 < s.freeze_time then some ⟨s.time, now, s.freeze_time - 1, s.energized⟩
    else some ⟨s.time - 1, now, s.freeze_time, s.energized⟩
  else some s

/-- Run `k` one-second ticks: `update` is called at `base + 1000`,
`base + 2000`, …, `base + 1000*k` (one call per elapsed second). -/
def runTicks (base : Nat) (s : PTState) : Nat → Option PTState
  | 0 => some s
  | k + 1 => (runTicks base s k).bind fun s2 => PowerTimer.update (base + 1000 * (k + 1)) s2

/-- Invariant of the countdown run: with no freeze pending, after `k ≤ T`
ticks the remaining time is `T - k`, the tick timestamp has advanced by
`1000*k`, and the output is still energized. -/
theorem runTicks_invariant (T : Nat) (now0 : Nat) (s0 : PTState)
    (hfz : s0.freeze_time = 0) :
    ∀ k, k ≤ T →
      runTicks now0 (PowerTimer.start (T : Int) now0 s0) k =
        some ⟨(T : Int) - (k : Int), now0 + 1000 * k, 0, true⟩ := by
  intro k
  induction k with
  | zero =>
    intro _
    simp [runTicks, PowerTimer.start, hfz]
  | succ k ih =>
    intro hk
    have hk' : k ≤ T := Nat.le_of_succ_le hk
    rw [runTicks, ih hk']
    have hpos : ¬ ((T : Int) - (k : Int) ≤ 0) := by
      have : k < T := hk
      omega
    have helapsed : 1000 ≤ (now0 + 1000 * (k + 1)) - (now0 + 1000 * k) := by omega
    show PowerTimer.update (now0 + 1000 * (k + 1))
        (⟨(T : Int) - (k : Int), now0 + 1000 * k, 0, true⟩ : PTState) = _
    simp only [PowerTimer.update]
    rw [if_neg hpos, if_pos helapsed, if_neg (by omega : ¬ ((0 : Int) < 0))]
    have heq : (T : Int) - (k : Int) - 1 = (T : Int) - ((k + 1 : Nat) : Int) := by
      push_cast
      ring
    rw [heq]

/-- Claim C1: for every `T > 0`, after `PowerTimer::start(T)` with no freeze
pending, simulating `T` elapsed one-second ticks drives the remaining time
to 0 (output still energized throughout), and the next `update()` call —
at any later instant — returns `none`, i.e. enters the terminal `off()`
busy-loop that asserts the de-energized output forever and never returns
to counting. -/
theorem powerTimer_countdown_to_off (T : Nat) (now0 : Nat) (s0 : PTState)
    (hT : 0 < T) (hfz : s0.freeze_time = 0) :
    runTicks now0 (PowerTimer.start (T : Int) now0 s0) T =
      some ⟨0, now0 + 1000 * T, 0, true⟩ ∧
    ∀ now2 : Nat, PowerTimer.update now2 (⟨0, now0 + 1000 * T, 0, true⟩ : PTState) = none := by
  constructor
  · have h := runTicks_invariant T now0 s0 hfz T (Nat.le_refl T)
    simpa using h
  · intro now2
    simp [PowerTimer.update]

/-- Witness for C1 at `T = 3`, `now0 = 0`, initial state with no freeze. -/
theorem powerTimer_countdown_to_off_witness :
    0 < 3 ∧ (⟨5, 0, 0, false⟩ : PTState).freeze_time = 0 ∧
    runTicks 0 (PowerTimer.start ((3 : Nat) : Int) 0 ⟨5, 0, 0, false⟩) 3 =
      some ⟨0, 0 + 1000 * 3, 0, true⟩ :=
  ⟨by decide, by decide,
    (powerTimer_countdown_to_off 3 0 ⟨5, 0, 0, false⟩ (by decide) (by decide)).1⟩

-- Claim C2 concerns `PowerTimer::start` and a pending freeze.  The source of
-- `start` sets `time`, `timer` and the output pin only: `freeze_time` is left
-- untouched, so a pending freeze is NOT cancelled.

/-- Counterexample to claim C2 as stated: starting from a state with
`freeze_time = 3`, after `start(10)` the freeze counter is still 3 (not 0),
and the first subsequent one-second tick decrements the leftover freeze
counter — the remaining time stays at 10. -/
theorem start_cancels_freeze_counterexample :
    (PowerTimer.start 10 1000 ⟨7, 0, 3, true⟩).freeze_time = 3 ∧
    ¬ (PowerTimer.start 10 1000 ⟨7, 0, 3, true⟩).freeze_time = 0 ∧
    PowerTimer.update 2000 (PowerTimer.start 10 1000 ⟨7, 0, 3, true⟩) =
      some ⟨10, 2000, 2, true⟩ := by
  decide

/-- Claim C2 (amended): after `PowerTimer::start(t)`, the remaining time
equals `t`, the tick timestamp is reset, and the output is energized — but
a pending freeze is NOT cancelled: `freeze_time` is unchanged, and if it
was positive, the first subsequent one-second tick decrements the leftover
freeze counter instead of the remaining time. -/
theorem start_sets_time_keeps_freeze (t : Int) (now : Nat) (s : PTState) :
    (PowerTimer.start t now s).time = t ∧
    (PowerTimer.start t now s).timer = now ∧
    (PowerTimer.start t now s).energized = true ∧
    (PowerTimer.start t now s).freeze_time = s.freeze_time ∧
    (0 < s.freeze_time → 0 < t → ∀ now2 : Nat, 1000 ≤ now2 - now →
      PowerTimer.update now2 (PowerTimer.start t now s) =
        some ⟨t, now2, s.freeze_time - 1, true⟩) := by
  refine ⟨rfl, rfl, rfl, rfl, ?_⟩
  intro hfz ht now2 hel
  simp only [PowerTimer.update, PowerTimer.start]
  rw [if_neg (by omega : ¬ (t ≤ 0)), if_pos hel, if_pos hfz]

/-- Witness for the amended C2 at `t = 10`, pending freeze 3, tick at 2000. -/
theorem start_sets_time_keeps_freeze_witness :
    0 < (3 : Int) ∧ 0 < (10 : Int) ∧ 1000 ≤ 2000 - 1000 ∧
    PowerTimer.update 2000 (PowerTimer.start 10 1000 ⟨7, 500, 3, true⟩) =
      some ⟨10, 2000, 2, true⟩ :=
  ⟨by decide, by decide, by decide,
    (start_sets_time_keeps_freeze 10 1000 ⟨7, 500, 3, true⟩).2.2.2.2
      (by decide) (by decide) 2000 (by decide)⟩

-- --------------- SettingsArray (Timer/classes.h, lines 101-158) --------------- --

/-- `SettingsArray<T,SIZE>::next(bool cyclic)` acting on the selection
index: if `index + 1 >= SIZE`, either wrap to 0 (cyclic) or fail without
mutation; else increment.  Returns (success, new index); `size` is the
template parameter `SIZE`. -/
def SettingsArray.next (size idx : Nat) (cyclic : Bool) : Bool × Nat :=
  if size ≤ idx + 1 then
    if cyclic then (true, 0) else (false, idx)
  else (true, idx + 1)

/-- `SettingsArray<T,SIZE>::prev(bool cyclic)` acting on the selection
index: if `index - 1 < 0` (the C `int` test; with the invariant
`0 ≤ index` this is `index = 0`), either wrap to `SIZE - 1` (cyclic) or
fail without mutation; else decrement. -/
def SettingsArray.prev (size idx : Nat) (cyclic : Bool) : Bool × Nat :=
  if (idx : Int) - 1 < 0 then
    if cyclic then (true, size - 1) else (false, idx)
  else (true, idx - 1)

/-- One cyclic `next` on a valid index moves to `(idx + 1) % size`. -/
theorem next_cyclic_eq_mod (size idx : Nat) (h : idx < size) :
    (SettingsArray.next size idx true).2 = (idx + 1) % size := by
  unfold SettingsArray.next
  by_cases hb : size ≤ idx + 1
  · have : idx + 1 = size := by omega
    simp [hb, this]
  · have : (idx + 1) % size = idx + 1 := Nat.mod_eq_of_lt (by omega)
    simp [hb, this]

/-- One cyclic `prev` on a valid index moves to `(idx + (size - 1)) % size`. -/
theorem prev_cyclic_eq_mod (size idx : Nat) (hsz : 0 < size) (h : idx < size) :
    (SettingsArray.prev size idx true).2 = (idx + (size - 1)) % size := by
  unfold SettingsArray.prev
  by_cases hb : (idx : Int) - 1 < 0
  · have h0 : idx = 0 := by omega
    have : (size - 1) % size = size - 1 := Nat.mod_eq_of_lt (by omega)
    simp [hb, h0, this]
  · have h1 : ¬ idx = 0 := by omega
    have : idx + (size - 1) = (idx - 1) + size := by omega
    rw [if_neg hb]
    simp only [this, Nat.add_mod_right]
    exact (Nat.mod_eq_of_lt (by omega)).symm

/-- Iterating cyclic `next` k times from a valid start lands on `(idx + k) % size`. -/
theorem next_cyclic_iterate (size idx : Nat) (hsz : 0 < size) (h : idx < size) :
    ∀ k, (fun j => (SettingsArray.next size j true).2)^[k] idx = (idx + k) % size := by
  intro k
  induction k with
  | zero => simp [Nat.mod_eq_of_lt h]
  | succ k ih =>
    rw [Function.iterate_succ_apply', ih]
    have hlt : (idx + k) % size < size := Nat.mod_lt _ hsz
    rw [next_cyclic_eq_mod size _ hlt, Nat.mod_add_mod]
    congr 1

/-- Iterating cyclic `prev` k times from a valid start lands on
`(idx + k * (size - 1)) % size`. -/
theorem prev_cyclic_iterate (size idx : Nat) (hsz : 0 < size) (h : idx < size) :
    ∀ k, (fun j => (SettingsArray.prev size j true).2)^[k] idx =
      (idx + k * (size - 1)) % size := by
  intro k
  induction k with
  | zero => simp [Nat.mod_eq_of_lt h]
  | succ k ih =>
    rw [Function.iterate_succ_apply', ih]
    have hlt : (idx + k * (size - 1)) % size < size := Nat.mod_lt _ hsz
    rw [prev_cyclic_eq_mod size _ hsz hlt, Nat.mod_add_mod]
    congr 1
    ring

/-- Claim C5: for every capacity `N > 0` and valid starting index `i < N`:
cyclic `next` applied `N` times returns the index to `i`, and so does
cyclic `prev` applied `N` times; non-cyclic `next` at the upper boundary
fails leaving the index unchanged and succeeds moving by +1 elsewhere;
non-cyclic `prev` at index 0 fails leaving the index unchanged and
succeeds moving by -1 elsewhere. -/
theorem settingsArray_advance (N i : Nat) (hN : 0 < N) (hi : i < N) :
    (fun j => (SettingsArray.next N j true).2)^[N] i = i ∧
    (fun j => (SettingsArray.prev N j true).2)^[N] i = i ∧
    (i + 1 = N → SettingsArray.next N i false = (false, i)) ∧
    (i + 1 < N → SettingsArray.next N i false = (true, i + 1)) ∧
    (i = 0 → SettingsArray.prev N i false = (false, i)) ∧
    (0 < i → SettingsArray.prev N i false = (true, i - 1)) := by
  refine ⟨?_, ?_, ?_, ?_, ?_, ?_⟩
  · rw [next_cyclic_iterate N i hN hi N, Nat.add_mod_right]
    exact Nat.mod_eq_of_lt hi
  · rw [prev_cyclic_iterate N i hN hi N]
    have : i + N * (N - 1) = i + (N - 1) * N := by ring
    rw [this, Nat.add_mul_mod_self_right]
    exact Nat.mod_eq_of_lt hi
  · intro hb
    unfold SettingsArray.next
    rw [if_pos (by omega), if_neg (by simp)]
  · intro hb
    unfold SettingsArray.next
    rw [if_neg (by omega)]
  · intro hb
    unfold SettingsArray.prev
    rw [if_pos (by omega), if_neg (by simp)]
  · intro hb
    unfold SettingsArray.prev
    rw [if_neg (by omega)]

/-- Witness for C5 at `N = 4` (the preset store capacity), `i = 1`. -/
theorem settingsArray_advance_witness :
    0 < 4 ∧ 1 < 4 ∧ (fun j => (SettingsArray.next 4 j true).2)^[4] 1 = 1 :=
  ⟨by decide, by decide, (settingsArray_advance 4 1 (by decide) (by decide)).1⟩

-- --------------- TIME PLUS / TIME MINUS branches of loop() --------------- --
-- (SpinacPavol_101.ino, lines 216-237)

/-- The TIME PLUS branch: `interval = intervals.current() * 60`;
`t = (t / interval + 1) * interval`; if `t < 90 * 60` then `pt.start(t)`
(else the remaining time is left unchanged).  Returns
(countdown restarted?, resulting remaining time).  `intervalMin` is the
current interval in minutes, `t` the remaining time in seconds. -/
def timePlus (intervalMin t : Nat) : Bool × Nat :=
  let interval := intervalMin * 60
  let t2 := (t / interval + 1) * interval
  if t2 < 90 * 60 then (true, t2) else (false, t)

/-- The TIME MINUS branch: `interval = intervals.current() * 60`;
`t = ((t - 1) / interval) * interval`; if `t > 0` then `pt.start(t)`
(else the request is rejected and the remaining time is unchanged). -/
def timeMinus (intervalMin t : Nat) : Bool × Nat :=
  let interval := intervalMin * 60
  let t2 := (t - 1) / interval * interval
  if 0 < t2 then (true, t2) else (false, t)

/-- Claim C6: on a plus-button press the computed value
`r = (t / (60*m) + 1) * (60*m)` is exactly the least multiple of the
interval strictly greater than the remaining time `t`; when `r` is below
the 90-minute bound (5400 s) it is applied by restarting the countdown,
and otherwise the press leaves the remaining time unchanged — so a value
of 5400 s or more is never applied. -/
theorem timePlus_rounds_up (m t : Nat) (hm : 0 < m) :
    m * 60 ∣ (t / (m * 60) + 1) * (m * 60) ∧
    t < (t / (m * 60) + 1) * (m * 60) ∧
    (∀ k, m * 60 ∣ k → t < k → (t / (m * 60) + 1) * (m * 60) ≤ k) ∧
    ((t / (m * 60) + 1) * (m * 60) < 5400 →
      timePlus m t = (true, (t / (m * 60) + 1) * (m * 60))) ∧
    (5400 ≤ (t / (m * 60) + 1) * (m * 60) → timePlus m t = (false, t)) := by
  have hi : 0 < m * 60 := by omega
  refine ⟨Dvd.intro_left _ rfl, ?_, ?_, ?_, ?_⟩
  · have hmod := Nat.div_add_mod t (m * 60)
    have hlt : t % (m * 60) < m * 60 := Nat.mod_lt _ hi
    have hexp : (t / (m * 60) + 1) * (m * 60) = (m * 60) * (t / (m * 60)) + m * 60 := by
      ring
    omega
  · intro k hdvd hk
    obtain ⟨c, rfl⟩ := hdvd
    have hc : t / (m * 60) < c := by
      have := (Nat.div_lt_iff_lt_mul hi).mpr (by
        calc t < m * 60 * c := hk
        _ = c * (m * 60) := by ring)
      exact this
    calc (t / (m * 60) + 1) * (m * 60) ≤ c * (m * 60) := by
          exact Nat.mul_le_mul_right _ (by omega)
    _ = m * 60 * c := by ring
  · intro hlt
    unfold timePlus
    rw [if_pos hlt]
  · intro hge
    unfold timePlus
    rw [if_neg (by omega)]

/-- Witness for C6 at the spec scenario: interval 1 min, remaining 125 s —
the press restarts the countdown at 180 s. -/
theorem timePlus_rounds_up_witness :
    0 < 1 ∧ timePlus 1 125 = (true, 180) :=
  ⟨by decide, by
    have h := (timePlus_rounds_up 1 125 (by decide)).2.2.2.1 (by decide)
    simpa using h⟩

/-- Claim C7: on a minus-button press the computed value
`r = ((t - 1) / (60*m)) * (60*m)` is, for `t > 0`, the greatest multiple of
the interval strictly below the remaining time `t`; if `r = 0` the request
is rejected and the remaining time stays unchanged, otherwise `r` is
applied by restarting the countdown. -/
theorem timeMinus_rounds_down (m t : Nat) (hm : 0 < m) (ht : 0 < t) :
    m * 60 ∣ (t - 1) / (m * 60) * (m * 60) ∧
    (t - 1) / (m * 60) * (m * 60) < t ∧
    (∀ k, m * 60 ∣ k → k < t → k ≤ (t - 1) / (m * 60) * (m * 60)) ∧
    (0 < (t - 1) / (m * 60) * (m * 60) →
      timeMinus m t = (true, (t - 1) / (m * 60) * (m * 60))) ∧
    ((t - 1) / (m * 60) * (m * 60) = 0 → timeMinus m t = (false, t)) := by
  have hi : 0 < m * 60 := by omega
  refine ⟨Dvd.intro_left _ rfl, ?_, ?_, ?_, ?_⟩
  · have h1 : (t - 1) / (m * 60) * (m * 60) ≤ t - 1 := Nat.div_mul_le_self _ _
    omega
  · intro k hdvd hk
    obtain ⟨c, rfl⟩ := hdvd
    have hc : c ≤ (t - 1) / (m * 60) := by
      rw [Nat.le_div_iff_mul_le hi]
      have : m * 60 * c ≤ t - 1 := by omega
      calc c * (m * 60) = m * 60 * c := by ring
      _ ≤ t - 1 := this
    calc m * 60 * c = c * (m * 60) := by ring
    _ ≤ (t - 1) / (m * 60) * (m * 60) := Nat.mul_le_mul_right _ hc
  · intro hpos
    unfold timeMinus
    rw [if_pos hpos]
  · intro hzero
    unfold timeMinus
    rw [if_neg (by omega)]

/-- Witness for C7 at the spec scenario: interval 1 min, remaining 125 s —
the press restarts the countdown at 120 s. -/
theorem timeMinus_rounds_down_witness :
    0 < 1 ∧ 0 < 125 ∧ timeMinus 1 125 = (true, 120) :=
  ⟨by decide, by decide, by
    have h := (timeMinus_rounds_down 1 125 (by decide) (by decide)).2.2.2.1 (by decide)
    simpa using h⟩

-- --------------- Display (Timer/classes.h, lines 220-310) --------------- --

/-- State of `class Display` relevant to repaint control: `timer` is the
`millis()` timestamp written by `printTimeScreen()` (the rate-limit
reference), `timerT` the timestamp written by `freeze()`, `tempTime` the
transient-message duration (0 = no transient active). -/
structure DState where
  timer : Nat
  timerT : Nat
  tempTime : Nat
deriving DecidableEq, Repr

/-- `Display::printTimeScreen()`: sets `timer = millis()` and paints the
time screen (the paint is counted in the second component; the drawing
itself goes to the external display device). -/
def Display.printTimeScreen (now : Nat) (s : DState) : DState × Nat :=
  (⟨now, s.timerT, s.tempTime⟩, 1)

/-- `Display::printText(char*)`: paints a text screen.  It touches no
member of the class — in particular not `timer`. -/
def Display.printText (s : DState) : DState × Nat :=
  (s, 1)

/-- `Display::printInterval()`: paints the interval screen.  It touches no
member of the class — in particular not `timer`. -/
def Display.printInterval (s : DState) : DState × Nat :=
  (s, 1)

/-- `Display::freeze(unsigned long)`: records the transient start time and
duration. -/
def Display.freeze (now f : Nat) (s : DState) : DState :=
  ⟨s.timer, now, f⟩

/-- `Display::update()`: returns the new state and the number of repaints
performed by this call.  Mirrors the source: an early return when less than
`DISPLAY_UPDATE_TIME` (200 ms) has elapsed since the last time-screen
paint; then, if a transient message is active, either an early return (not
yet expired) or — on expiry — `tempTime = 0` followed by
`printTimeScreen()`, after which control FALLS THROUGH to the final
`printTimeScreen()` (there is no early return after the expiry branch, so
that call paints twice); otherwise a single `printTimeScreen()`. -/
def Display.update (now : Nat) (s : DState) : DState × Nat :=
  if now - s.timer < 200 then (s, 0)
  else if s.tempTime ≠ 0 then
    if s.tempTime < now - s.timerT then
      let a := Display.printTimeScreen now ⟨s.timer, s.timerT, 0⟩
      let b := Display.printTimeScreen now a.1
      (b.1, a.2 + b.2)
    else (s, 0)
  else
    let a := Display.printTimeScreen now s
    (a.1, a.2)

/-- The transient-expiry condition of `update()` at instant `now`: the
rate-limit guard passes, a transient message is active, and its duration
has elapsed. -/
def Display.expires (now : Nat) (s : DState) : Bool :=
  decide (200 ≤ now - s.timer) && decide (s.tempTime ≠ 0) &&
    decide (s.tempTime < now - s.timerT)

/-- Counterexample to claim C9 as stated: with last time-screen paint at 0
and a 2000 ms transient message started at 0, the `update()` call at
2300 ms paints twice (transient expiry falls through to the final
`printTimeScreen()`), and the call at 2400 ms — only 100 ms later — paints
zero times: two calls separated by less than 200 ms produce 2 repaints in
total, not at most one. -/
theorem display_two_repaints_counterexample :
    (Display.update 2300 ⟨0, 0, 2000⟩).2 = 2 ∧
    (Display.update 2400 (Display.update 2300 ⟨0, 0, 2000⟩).1).2 = 0 ∧
    2400 - 2300 < 200 := by
  decide

/-- Claim C9 (amended): `update()` is a no-op (state unchanged, no repaint)
when less than 200 ms has elapsed since the last time-screen paint; two
`update()` calls separated by less than 200 ms of simulated time produce
at most two repaints in total, and at most one unless the transient-message
window expires during one of the calls (the expiring call repaints twice in
succession because the expiry branch falls through to the final
`printTimeScreen()`). -/
theorem display_rate_limited (s : DState) (n1 n2 : Nat)
    (h12 : n1 ≤ n2) (hlt : n2 - n1 < 200) :
    (n1 - s.timer < 200 → Display.update n1 s = (s, 0)) ∧
    (Display.update n1 s).2 + (Display.update n2 (Display.update n1 s).1).2 ≤ 2 ∧
    (Display.expires n1 s = false →
      Display.expires n2 (Display.update n1 s).1 = false →
      (Display.update n1 s).2 + (Display.update n2 (Display.update n1 s).1).2 ≤ 1) := by
  refine ⟨?_, ?_, ?_⟩
  · intro hguard
    unfold Display.update
    rw [if_pos hguard]
  · unfold Display.update Display.printTimeScreen
    split_ifs <;> simp_all <;> omega
  · intro he1 he2
    unfold Display.expires at he1 he2
    unfold Display.update Display.printTimeScreen at *
    split_ifs at * <;> simp_all <;> omega

/-- Witness for the amended C9 at a state with no transient and a fresh
paint: the first call paints once, the second (120 ms later) not at all. -/
theorem display_rate_limited_witness :
    300 ≤ 420 ∧ 420 - 300 < 200 ∧
    (Display.update 300 ⟨0, 0, 0⟩).2 +
      (Display.update 420 (Display.update 300 ⟨0, 0, 0⟩).1).2 ≤ 2 :=
  ⟨by decide, by decide,
    (display_rate_limited ⟨0, 0, 0⟩ 300 420 (by decide) (by decide)).2.1⟩

/-- Claim C10: `printText` and `printInterval` leave the whole display
state — in particular the rate-limit timestamp `timer` — unchanged, while
`printTimeScreen` resets `timer` to the current instant; consequently an
`update()` call right after `printText`/`printInterval` behaves exactly as
if that paint had not happened (it is not rate-limited by it), whereas
after `printTimeScreen` at instant `p`, an `update()` call less than
200 ms later is a no-op. -/
theorem display_text_paints_leave_timer (s : DState) (now p : Nat) :
    (Display.printText s).1 = s ∧
    (Display.printInterval s).1 = s ∧
    (Display.printTimeScreen p s).1.timer = p ∧
    Display.update now (Display.printText s).1 = Display.update now s ∧
    Display.update now (Display.printInterval s).1 = Display.update now s ∧
    (now - p < 200 →
      Display.update now (Display.printTimeScreen p s).1 =
        ((Display.printTimeScreen p s).1, 0)) := by
  refine ⟨rfl, rfl, rfl, rfl, rfl, ?_⟩
  intro hlt
  unfold Display.update Display.printTimeScreen
  rw [if_pos hlt]

/-- Witness for C10: after a time-screen paint at 1000 ms, an `update()` at
1100 ms is a no-op. -/
theorem display_text_paints_leave_timer_witness :
    1100 - 1000 < 200 ∧
    Display.update 1100 (Display.printTimeScreen 1000 ⟨0, 0, 0⟩).1 =
      ((Display.printTimeScreen 1000 ⟨0, 0, 0⟩).1, 0) :=
  ⟨by decide,
    (display_text_paints_leave_timer ⟨0, 0, 0⟩ 1100 1000).2.2.2.2.2 (by decide)⟩

-- --------------- button_ready latch in loop() --------------- --
-- (SpinacPavol_101.ino, lines 90-91 and 186-214)

/-- One pass of `loop()` restricted to the state it reads and writes for
the power-off guard: `ready` is the global `button_ready` (initialised
`false` at boot), and the three Booleans are the ON-button collaborator
results `pressed()`, `onClick()`, `onLong()` sampled in this pass.  Returns
(new `button_ready`, whether the RELAY OFF branch fired `pt.off()`).
Mirrors the source: first the arming step
`if (!buttonOn.pressed() && !button_ready) button_ready = true;`,
then the dispatch chain where the NEXT_PRESET branch (`onClick`) clears the
latch and the RELAY OFF branch (`onLong && button_ready`) fires the
terminal off. -/
def loopPass (ready pressed click long : Bool) : Bool × Bool :=
  let ready1 := if !pressed && !ready then true else ready
  if click then (false, false)
  else if long && ready1 then (ready1, true)
  else (ready1, false)

/-- Fold `loopPass` over a list of per-pass ON-button samples
(pressed, onClick, onLong), starting from latch state `ready`; the second
component records whether any pass fired the RELAY OFF branch. -/
def runLoop (ready : Bool) : List (Bool × Bool × Bool) → Bool × Bool
  | [] => (ready, false)
  | i :: rest =>
    let r := loopPass ready i.1 i.2.1 i.2.2
    let t := runLoop r.1 rest
    (t.1, r.2 || t.2)

/-- Claim C8: the RELAY OFF branch fires only in a pass where the latch is
armed at the check (it was already armed, or the button was observed
released at the top of that same pass) with `onLong` set and no `onClick`;
the latch becomes armed only when the button is observed released; a click
pass always clears the latch; and consequently, starting from the unarmed
state (boot, or right after a preset-switch click), a long press never
fires the power-off as long as the button has been observed pressed in
every pass — a full press-release cycle is required. -/
theorem button_ready_guards_off :
    (∀ ready pressed click long : Bool,
      (loopPass ready pressed click long).2 = true →
      click = false ∧ long = true ∧ (ready = true ∨ pressed = false)) ∧
    (∀ ready pressed click long : Bool,
      (loopPass ready pressed click long).1 = true →
      ready = true ∨ pressed = false) ∧
    (∀ ready pressed long : Bool, (loopPass ready pressed true long).1 = false) ∧
    (∀ l : List (Bool × Bool × Bool),
      (∀ i ∈ l, i.1 = true) → (runLoop false l).2 = false) := by
  refine ⟨by decide, by decide, by decide, ?_⟩
  intro l
  induction l with
  | nil => intro _; rfl
  | cons i rest ih =>
    intro hall
    have hi : i.1 = true := hall i (List.mem_cons_self i rest)
    have hrest : ∀ j ∈ rest, j.1 = true := fun j hj => hall j (List.mem_cons_of_mem i hj)
    have hstep : loopPass false i.1 i.2.1 i.2.2 = (false, false) := by
      rw [hi]
      rcases i with ⟨p, c, g⟩
      rcases c <;> rcases g <;> rfl
    show ((runLoop (loopPass false i.1 i.2.1 i.2.2).1 rest).1,
      (loopPass false i.1 i.2.1 i.2.2).2 || (runLoop (loopPass false i.1 i.2.1 i.2.2).1 rest).2).2 = false
    rw [hstep]
    simp only [Bool.false_or]
    exact ih hrest

/-- Witness for C8: two passes with the button held (second with `onLong`)
from the boot state never fire the power-off. -/
theorem button_ready_guards_off_witness :
    (∀ i ∈ [((true : Bool), (false : Bool), (false : Bool)), (true, false, true)], i.1 = true) ∧
    (runLoop false [((true : Bool), (false : Bool), (false : Bool)), (true, false, true)]).2 = false :=
  ⟨by decide,
    button_ready_guards_off.2.2.2 [((true : Bool), (false : Bool), (false : Bool)), (true, false, true)]
      (by decide)⟩

-- --------------- EEPROM persistence (SpinacPavol_101.ino, 95-131) --------------- --

/-- Low byte of a 16-bit little-endian AVR `int`. -/
def byteLo (v : Nat) : Nat := v % 256

/-- High byte of a 16-bit little-endian AVR `int`. -/
def byteHi (v : Nat) : Nat := v / 256 % 256

/-- The contents of `SettingsArray<int, 4> presetTimes`: four preset values
`data[0..3]` and the selection `index`.  Each field holds the 16-bit
pattern of the corresponding AVR `int` (a `Nat` below 65536 for
representable values). -/
structure PresetStore where
  d0 : Nat
  d1 : Nat
  d2 : Nat
  d3 : Nat
  index : Nat
deriving DecidableEq, Repr

/-- `SettingsArray::setCurrent(v)`: `data[index] = v`.  (Defined under the
class invariant `0 ≤ index < 4`; for an out-of-range index the C code is
undefined and the model leaves the store unchanged.) -/
def PresetStore.setCurrent (v : Nat) (s : PresetStore) : PresetStore :=
  if s.index = 0 then ⟨v, s.d1, s.d2, s.d3, s.index⟩
  else if s.index = 1 then ⟨s.d0, v, s.d2, s.d3, s.index⟩
  else if s.index = 2 then ⟨s.d0, s.d1, v, s.d3, s.index⟩
  else if s.index = 3 then ⟨s.d0, s.d1, s.d2, v, s.index⟩
  else s

/-- `SettingsArray::current()`: `data[index]` (same invariant as above). -/
def PresetStore.current (s : PresetStore) : Nat :=
  if s.index = 0 then s.d0
  else if s.index = 1 then s.d1
  else if s.index = 2 then s.d2
  else s.d3

/-- The byte image `EEPROM.put(0, presetTimes)` writes: the AVR in-memory
layout of `SettingsArray<int, 4>` — four 2-byte little-endian ints
`data[0..3]` followed by the 2-byte int `index` (`sizeof = 10`, no
padding). -/
def PresetStore.serialize (s : PresetStore) : List Nat :=
  [byteLo s.d0, byteHi s.d0, byteLo s.d1, byteHi s.d1, byteLo s.d2, byteHi s.d2,
   byteLo s.d3, byteHi s.d3, byteLo s.index, byteHi s.index]

/-- The 16-entry nibble table of `crcCompute`. -/
def crc_table : List Nat :=
  [0x00000000, 0x1db71064, 0x3b6e20c8, 0x26d930ac,
   0x76dc4190, 0x6b6b51f4, 0x4db26158, 0x5005713c,
   0xedb88320, 0xf00f9344, 0xd6d6a3e8, 0xcb61b38c,
   0x9b64c2b0, 0x86d3d2d4, 0xa00ae278, 0xbdbdf21c]

/-- One loop iteration of `crcCompute` for the byte `b`: two nibble-wise
table steps followed by `crc = ~crc`, on `unsigned long` (mod 2^32). -/
def crcStep (crc b : Nat) : Nat :=
  let c1 := crc_table.getD ((crc ^^^ b) &&& 0x0f) 0 ^^^ (crc >>> 4)
  let c2 := crc_table.getD ((c1 ^^^ (b >>> 4)) &&& 0x0f) 0 ^^^ (c1 >>> 4)
  (c2 ^^^ 0xFFFFFFFF) % 4294967296

/-- `crcCompute(int length)`: the table-driven CRC over the first `length`
EEPROM bytes (`EEPROM[0] .. EEPROM[length-1]`), seeded with `~0L`. -/
def crcCompute (rom : List Nat) (length : Nat) : Nat :=
  (List.range length).foldl (fun crc i => crcStep crc (rom.getD i 0)) 0xFFFFFFFF

/-- The four bytes `EEPROM.put(sizeof(presetTimes), crc)` writes: the
little-endian image of the 32-bit `unsigned long` checksum. -/
def crcBytes (c : Nat) : List Nat :=
  [c % 256, c / 256 % 256, c / 65536 % 256, c / 16777216 % 256]

/-- `EEPROM.get(i, saved_crc)` for an `unsigned long`: read four bytes at
offset `i`, little-endian. -/
def word32At (rom : List Nat) (i : Nat) : Nat :=
  rom.getD i 0 + 256 * rom.getD (i + 1) 0 + 65536 * rom.getD (i + 2) 0 +
    16777216 * rom.getD (i + 3) 0

/-- `saveToEEPROM()`: `presetTimes.setCurrent(pt.getTime())`, then
`EEPROM.put(0, presetTimes)` followed by
`EEPROM.put(sizeof(presetTimes), crcCompute(sizeof(presetTimes)))`.
Returns the resulting 14-byte EEPROM image. -/
def saveToEEPROM (ptTime : Nat) (st : PresetStore) : List Nat :=
  let s2 := st.setCurrent ptTime
  s2.serialize ++ crcBytes (crcCompute s2.serialize 10)

/-- `EEPROM.get(0, presetTimes)`: read the 10-byte object image back. -/
def PresetStore.deserialize (rom : List Nat) : PresetStore :=
  ⟨rom.getD 0 0 + 256 * rom.getD 1 0,
   rom.getD 2 0 + 256 * rom.getD 3 0,
   rom.getD 4 0 + 256 * rom.getD 5 0,
   rom.getD 6 0 + 256 * rom.getD 7 0,
   rom.getD 8 0 + 256 * rom.getD 9 0⟩

/-- `loadFromEEPROM()`: read the store image and the trailing checksum,
recompute the checksum over the stored bytes, and return whether they
match, together with the loaded store. -/
def loadFromEEPROM (rom : List Nat) : Bool × PresetStore :=
  (word32At rom 10 == crcCompute rom 10, PresetStore.deserialize rom)

/-- The CRC accumulator stays below 2^32. -/
theorem crcFoldl_lt (l : List Nat) (rom : List Nat) :
    ∀ acc : Nat, acc < 4294967296 →
      l.foldl (fun crc i => crcStep crc (rom.getD i 0)) acc < 4294967296 := by
  induction l with
  | nil => intro acc h; exact h
  | cons a l ih =>
    intro acc _
    exact ih _ (Nat.mod_lt _ (by norm_num))

/-- `crcCompute` always returns a value below 2^32. -/
theorem crcCompute_lt (rom : List Nat) (len : Nat) : crcCompute rom len < 4294967296 :=
  crcFoldl_lt _ rom 0xFFFFFFFF (by norm_num)

/-- Reading back the 32-bit checksum stored after a 10-byte image yields
the checksum. -/
theorem word32At_ten (x0 x1 x2 x3 x4 x5 x6 x7 x8 x9 c : Nat) (hc : c < 4294967296) :
    word32At (x0 :: x1 :: x2 :: x3 :: x4 :: x5 :: x6 :: x7 :: x8 :: x9 :: crcBytes c) 10 = c := by
  show c % 256 + 256 * (c / 256 % 256) + 65536 * (c / 65536 % 256) +
      16777216 * (c / 16777216 % 256) = c
  omega

/-- Deserializing a 14-byte image reads exactly the first ten bytes. -/
theorem deserialize_ten (x0 x1 x2 x3 x4 x5 x6 x7 x8 x9 : Nat) (rest : List Nat) :
    PresetStore.deserialize
        (x0 :: x1 :: x2 :: x3 :: x4 :: x5 :: x6 :: x7 :: x8 :: x9 :: rest) =
      ⟨x0 + 256 * x1, x2 + 256 * x3, x4 + 256 * x5, x6 + 256 * x7, x8 + 256 * x9⟩ :=
  rfl

/-- Loading the image written by a save returns a checksum match and the
byte-identical store (helper, over an arbitrary well-formed store). -/
theorem load_after_save_helper (s2 : PresetStore)
    (h0 : s2.d0 < 65536) (h1 : s2.d1 < 65536) (h2 : s2.d2 < 65536)
    (h3 : s2.d3 < 65536) (h4 : s2.index < 65536) :
    loadFromEEPROM (s2.serialize ++ crcBytes (crcCompute s2.serialize 10)) = (true, s2) := by
  obtain ⟨d0, d1, d2, d3, idx⟩ := s2
  replace h0 : d0 < 65536 := h0
  replace h1 : d1 < 65536 := h1
  replace h2 : d2 < 65536 := h2
  replace h3 : d3 < 65536 := h3
  replace h4 : idx < 65536 := h4
  have hc := crcCompute_lt (PresetStore.serialize ⟨d0, d1, d2, d3, idx⟩) 10
  have hrom : PresetStore.serialize ⟨d0, d1, d2, d3, idx⟩ ++
      crcBytes (crcCompute (PresetStore.serialize ⟨d0, d1, d2, d3, idx⟩) 10) =
      byteLo d0 :: byteHi d0 :: byteLo d1 :: byteHi d1 :: byteLo d2 :: byteHi d2 ::
      byteLo d3 :: byteHi d3 :: byteLo idx :: byteHi idx ::
      crcBytes (crcCompute (PresetStore.serialize ⟨d0, d1, d2, d3, idx⟩) 10) := rfl
  have hcrceq : crcCompute (byteLo d0 :: byteHi d0 :: byteLo d1 :: byteHi d1 :: byteLo d2 ::
      byteHi d2 :: byteLo d3 :: byteHi d3 :: byteLo idx :: byteHi idx ::
      crcBytes (crcCompute (PresetStore.serialize ⟨d0, d1, d2, d3, idx⟩) 10)) 10 =
      crcCompute (PresetStore.serialize ⟨d0, d1, d2, d3, idx⟩) 10 := rfl
  unfold loadFromEEPROM
  rw [hrom, hcrceq, word32At_ten _ _ _ _ _ _ _ _ _ _ _ hc, deserialize_ten]
  simp only [beq_self_eq_true, byteLo, byteHi, Prod.mk.injEq, PresetStore.mk.injEq, true_and]
  refine ⟨by omega, by omega, by omega, by omega, by omega⟩

/-- `setCurrent` with a representable value keeps all fields representable. -/
theorem setCurrent_bounds (t : Nat) (st : PresetStore) (ht : t < 65536)
    (h0 : st.d0 < 65536) (h1 : st.d1 < 65536) (h2 : st.d2 < 65536)
    (h3 : st.d3 < 65536) (h4 : st.index < 65536) :
    (st.setCurrent t).d0 < 65536 ∧ (st.setCurrent t).d1 < 65536 ∧
    (st.setCurrent t).d2 < 65536 ∧ (st.setCurrent t).d3 < 65536 ∧
    (st.setCurrent t).index < 65536 := by
  unfold PresetStore.setCurrent
  split_ifs <;> exact ⟨by assumption, by assumption, by assumption, by assumption, by assumption⟩

/-- Claim C4: round-trip persistence — for every preset-store content (all
fields 16-bit representable) and every `pt.getTime()` value, `load()`
performed on the bytes written by `save()` with no intervening corruption
returns a checksum match (`true`) and a store bit-identical to the one
saved (the store after `save()`'s own `setCurrent(pt.getTime())` step). -/
theorem eeprom_save_load_roundtrip (t : Nat) (st : PresetStore) (ht : t < 65536)
    (h0 : st.d0 < 65536) (h1 : st.d1 < 65536) (h2 : st.d2 < 65536)
    (h3 : st.d3 < 65536) (h4 : st.index < 65536) :
    loadFromEEPROM (saveToEEPROM t st) = (true, st.setCurrent t) := by
  obtain ⟨hb0, hb1, hb2, hb3, hb4⟩ := setCurrent_bounds t st ht h0 h1 h2 h3 h4
  exact load_after_save_helper (st.setCurrent t) hb0 hb1 hb2 hb3 hb4

/-- Witness for C4 at the factory store with `pt.getTime() = 125`. -/
theorem eeprom_save_load_roundtrip_witness :
    125 < 65536 ∧
    loadFromEEPROM (saveToEEPROM 125 ⟨60, 300, 600, 1800, 0⟩) =
      (true, PresetStore.setCurrent 125 ⟨60, 300, 600, 1800, 0⟩) :=
  ⟨by decide,
    eeprom_save_load_roundtrip 125 ⟨60, 300, 600, 1800, 0⟩ (by decide) (by decide)
      (by decide) (by decide) (by decide) (by decide)⟩

-- --------------- setup() recovery (SpinacPavol_101.ino, 137-181) --------------- --

/-- Externally visible actions of the tail of `setup()` after
`loadFromEEPROM()` returns. -/
inductive SetupEvent where
  | printText (msg : String)
  | doFreezeWait (ms : Nat)
  | startTimer (seconds : Nat)
  | freezeTimer (seconds : Nat)
deriving DecidableEq, Repr

/-- The factory preset values written on a checksum mismatch:
`presetTimes[0..3] = 60, 300, 600, 1800` and `setIndex(0)`. -/
def factoryPresets : PresetStore := ⟨60, 300, 600, 1800, 0⟩

/-- The preset-store initialisation of `setup()` (ino lines 150-181): call
`loadFromEEPROM()`; on failure reset the store to the factory values and
show the blocking "Er EPR" message (`printText`, `freeze(2000)`,
`doFreeze()`); in both cases continue startup, ending with
`pt.start(presetTimes.current())` and `pt.freeze(5)` (the SECURE START).
Returns the resulting store and the ordered event trace. -/
def setupRun (rom : List Nat) : PresetStore × List SetupEvent :=
  let r := loadFromEEPROM rom
  if r.1 then
    (r.2, [SetupEvent.startTimer r.2.current, SetupEvent.freezeTimer 5])
  else
    (factoryPresets,
     [SetupEvent.printText "Er EPR", SetupEvent.doFreezeWait 2000,
      SetupEvent.startTimer factoryPresets.current, SetupEvent.freezeTimer 5])

/-- Claim C3: if `load()` reports a checksum mismatch at startup, the
preset store is reset to the factory values `[60, 300, 600, 1800]` with
index 0, and the blocking "Er EPR" error message (shown, then waited out
synchronously by `doFreeze()`) precedes the rest of startup — which does
continue: the trace ends with the normal SECURE START actions, so the
mismatch is never fatal. -/
theorem setup_recovers_from_crc_mismatch (rom : List Nat)
    (h : (loadFromEEPROM rom).1 = false) :
    setupRun rom =
      (⟨60, 300, 600, 1800, 0⟩,
       [SetupEvent.printText "Er EPR", SetupEvent.doFreezeWait 2000,
        SetupEvent.startTimer 60, SetupEvent.freezeTimer 5]) := by
  simp only [setupRun]
  rw [h]
  rfl

/-- Witness for C3: an all-zero 14-byte EEPROM image fails the checksum,
and startup recovers as described. -/
theorem setup_recovers_from_crc_mismatch_witness :
    (loadFromEEPROM [0, 0, 0, 0, 0, 0, 0, 0, 0, 0, 0, 0, 0, 0]).1 = false ∧
    setupRun [0, 0, 0, 0, 0, 0, 0, 0, 0, 0, 0, 0, 0, 0] =
      (⟨60, 300, 600, 1800, 0⟩,
       [SetupEvent.printText "Er EPR", SetupEvent.doFreezeWait 2000,
        SetupEvent.startTimer 60, SetupEvent.freezeTimer 5]) :=
  ⟨by decide, setup_recovers_from_crc_mismatch _ (by decide)⟩
